import Mathlib

/-!
Verification development for the `borg` personal knowledge-management tool.

The repository's CLI (`src/scripts/cli.py`) dispatches the `view` subcommand to
a display pipeline (`display_graphical_view`) that loads records, optionally
applies one query-engine transform (fuzzy search, exact search, or sort), and
renders the result in a terminal browser.  The query engine and the browser
loop live in `scripts/views.py`, and the validator in `scripts/validation.py`;
those modules are not part of the sources here, so their behaviour is modelled
from the specification (each such definition is marked `Modelled from the
spec:`).  Everything else is embedded directly from `src/scripts/cli.py`.
-/

/-- The category of a record: note, todo, or event. -/
inductive Kind
  | note
  | todo
  | event
deriving DecidableEq, Repr

/-- One record loaded from a single file: its kind, source path (identity),
parsed property mapping, and the raw file text. -/
structure Record where
  kind : Kind
  sourcePath : String
  properties : List (String × String)
  rawContent : String
deriving DecidableEq, Repr

/-- Python truthiness of an optional string argument: `None` and the empty
string are falsy, every other string is truthy. -/
def truthy : Option String → Bool
  | none => false
  | some s => s != ""

/-- Look up a property value on a record (first binding wins). -/
def getProp (p : String) (r : Record) : Option String :=
  List.lookup p r.properties

/-- Whether the record carries the named property. -/
def hasProp (p : String) (r : Record) : Bool :=
  (getProp p r).isSome

/-- The named property's value, defaulting to the empty string when absent
(only used on records known to carry the property). -/
def propVal (p : String) (r : Record) : String :=
  (getProp p r).getD ""

/-- Does `needle` occur as a prefix of `haystack` (character lists)? -/
def startsWithL : List Char → List Char → Bool
  | [], _ => true
  | _ :: _, [] => false
  | a :: as, b :: bs => a == b && startsWithL as bs

/-- Does `needle` occur as a contiguous substring of `haystack`? -/
def containsL (needle : List Char) : List Char → Bool
  | [] => needle.isEmpty
  | c :: t => startsWithL needle (c :: t) || containsL needle t

/-- Does the first list occur as a (not necessarily contiguous) subsequence of
the second? -/
def subseqL : List Char → List Char → Bool
  | [], _ => true
  | _ :: _, [] => false
  | a :: as, b :: bs => if a == b then subseqL as bs else subseqL (a :: as) bs

/-- Modelled from the spec: the fuzzy matcher of `scripts.views.fuzzy_search`
(not under `src/`), §4.2 — case-insensitive substring-or-subsequence match of
the term against a value. -/
def fuzzyMatches (term value : String) : Bool :=
  containsL term.toLower.toList value.toLower.toList ||
    subseqL term.toLower.toList value.toLower.toList

/-- Modelled from the spec: `scripts.views.fuzzy_search` is not under `src/`.
Per §4.2 it is a stable filter keeping records whose named property's value
fuzzily matches the term, falling back to `rawContent` when the property is
absent; order among matches is the original collection order. -/
def fuzzy_search (entries : List Record) (prop term : String) : List Record :=
  entries.filter (fun r =>
    match getProp prop r with
    | some v => fuzzyMatches term v
    | none => fuzzyMatches term r.rawContent)

/-- Modelled from the spec: `scripts.views.exact_search` is not under `src/`.
Per §4.2 it keeps records whose named property's value equals the term
(case-sensitive); records lacking the property are excluded. -/
def exact_search (entries : List Record) (prop term : String) : List Record :=
  entries.filter (fun r =>
    match getProp prop r with
    | some v => v == term
    | none => false)

/-- Lexical comparison of two records on the named property's value. -/
def keyLe (p : String) (a b : Record) : Prop :=
  propVal p a ≤ propVal p b

instance (p : String) : DecidableRel (keyLe p) := fun a b =>
  inferInstanceAs (Decidable (propVal p a ≤ propVal p b))

instance (p : String) : IsTotal Record (keyLe p) :=
  ⟨fun a b => le_total (propVal p a) (propVal p b)⟩

instance (p : String) : IsTrans Record (keyLe p) :=
  ⟨fun _ _ _ h1 h2 => le_trans h1 h2⟩

/-- The ascending ordering of §4.2: stable sort of the records carrying the
property by lexical comparison of its value, followed by the records missing
the property in their original relative order. -/
def sortAsc (entries : List Record) (prop : String) : List Record :=
  List.insertionSort (keyLe prop) (entries.filter (fun r => hasProp prop r))
    ++ entries.filter (fun r => !hasProp prop r)

/-- Modelled from the spec: `scripts.views.sort_items` is not under `src/`.
Per §4.2, stable ordering by the named property's value using lexical
comparison, missing-property records after all present-property records;
`reverse = true` reverses the final ordering, missing-property tail included. -/
def sort_items (entries : List Record) (prop : String) (reverse : Bool) : List Record :=
  if reverse then (sortAsc entries prop).reverse else sortAsc entries prop

/-- The entry-loading dispatch at the top of `display_graphical_view`
(cli.py lines 70–80): each concrete kind loads its own folder contents, `all`
concatenates notes, todos and events, anything else yields the initial empty
list.  The loader itself is abstracted as `load`. -/
def loadEntries (load : String → List Record) (file_type : String) : List Record :=
  if file_type == "notes" then load "notes"
  else if file_type == "todos" then load "todos"
  else if file_type == "events" then load "events"
  else if file_type == "all" then load "notes" ++ load "todos" ++ load "events"
  else []

/-- The query stage of `display_graphical_view` (cli.py lines 82–91): a search
is applied only when both `search_prop` and `search_term` are truthy (exact
when the `exact` flag is set, fuzzy otherwise), then a sort is applied only
when `sort_prop` is truthy. -/
def applyQueries (entries : List Record) (search_prop search_term : Option String)
    (exact : Bool) (sort_prop : Option String) (reverse : Bool) : List Record :=
  let e1 :=
    if truthy search_prop && truthy search_term then
      if exact then exact_search entries (search_prop.getD "") (search_term.getD "")
      else fuzzy_search entries (search_prop.getD "") (search_term.getD "")
    else entries
  if truthy sort_prop then sort_items e1 (sort_prop.getD "") reverse else e1

/-- What the terminal shows: the explicit "no entries" placeholder, or the
record rows. -/
inductive RenderOutput
  | placeholder
  | rows (n : Nat)
deriving DecidableEq, Repr

/-- Modelled from the spec: `scripts.views.display_files_with_view` is not
under `src/`.  Per §4.3's rendering contract, an empty view renders the
explicit "no entries" placeholder rather than an empty screen. -/
def display_files_with_view (entries : List Record) : RenderOutput :=
  if entries.isEmpty then RenderOutput.placeholder else RenderOutput.rows entries.length

/-- The collection handed to the renderer by `display_graphical_view`
(cli.py lines 63–96): load, then search, then sort. -/
def display_graphical_view (load : String → List Record) (file_type : String)
    (search_prop search_term : Option String) (exact : Bool)
    (sort_prop : Option String) (reverse : Bool) : List Record :=
  applyQueries (loadEntries load file_type) search_prop search_term exact sort_prop reverse

/-- The argument bundle `main` passes to `display_graphical_view`. -/
structure DisplayCall where
  file_type : String
  search_prop : Option String
  search_term : Option String
  exact : Bool
  sort_prop : Option String
  reverse : Bool
deriving DecidableEq, Repr

/-- The `view` dispatch of `main` (cli.py lines 128–145): `s` with truthy
property and term requests a fuzzy search, `es` an exact search, `o` a sort,
`r` a reverse sort, and `a` — like any remaining case — a plain view. -/
def dispatchView (file_type : String) (cmd prop term : Option String) : DisplayCall :=
  if cmd == some "s" && truthy prop && truthy term then
    ⟨file_type, prop, term, false, none, false⟩
  else if cmd == some "es" && truthy prop && truthy term then
    ⟨file_type, prop, term, true, none, false⟩
  else if cmd == some "o" && truthy prop then
    ⟨file_type, none, none, false, prop, false⟩
  else if cmd == some "r" && truthy prop then
    ⟨file_type, none, none, false, prop, true⟩
  else if cmd == some "a" then
    ⟨file_type, none, none, false, none, false⟩
  else
    ⟨file_type, none, none, false, none, false⟩

/-- Run a dispatched display call through the display pipeline. -/
def runDisplayCall (load : String → List Record) (c : DisplayCall) : List Record :=
  display_graphical_view load c.file_type c.search_prop c.search_term c.exact
    c.sort_prop c.reverse

/-- The collection a `view` invocation displays, as a function of the parsed
optional arguments. -/
def viewResult (load : String → List Record) (file_type : String)
    (cmd prop term : Option String) : List Record :=
  runDisplayCall load (dispatchView file_type cmd prop term)

/-- The parsed subcommand of the CLI entry point. -/
inductive Command
  | init
  | view (file_type : String) (cmd prop term : Option String)
  | val
  | noCmd
deriving DecidableEq, Repr

/-- The observable outcome of one run of `main`: an interactive view session
started with the given entries, the default browser session started, an error
reported without a session, or a non-session command finishing. -/
inductive MainOutcome
  | sessionStarted (entries : List Record)
  | defaultSessionStarted
  | errorReported (msg : String)
  | finishedNoSession
deriving DecidableEq, Repr

/-- The message reported when the working directory is not initialized. -/
def uninitializedMsg : String := "directory is not initialized for org"

/-- Modelled from the spec: `scripts.validation.main` is not under `src/`.
Per §6 and §7(c), the validator either succeeds (browsing may proceed) or
raises a user-visible problem; an uninitialized working directory is a
fatal precondition that is reported and prevents the session from starting. -/
def run_validation (initialized : Bool) : Except String Unit :=
  if initialized then Except.ok () else Except.error uninitializedMsg

/-- The command dispatch of `main` (cli.py lines 120–159), with the validation
result passed explicitly: `view` runs validation first and starts the curses
session only when it succeeds; the bare invocation checks for the `.org`
scaffold and refuses to start the default browser when it is missing. -/
def mainRun (initialized : Bool) (valRes : Except String Unit)
    (load : String → List Record) : Command → MainOutcome
  | Command.init => MainOutcome.finishedNoSession
  | Command.view ft cmd prop term =>
    match valRes with
    | Except.error e => MainOutcome.errorReported e
    | Except.ok _ => MainOutcome.sessionStarted (viewResult load ft cmd prop term)
  | Command.val =>
    match valRes with
    | Except.error e => MainOutcome.errorReported e
    | Except.ok _ => MainOutcome.finishedNoSession
  | Command.noCmd =>
    if initialized then MainOutcome.defaultSessionStarted
    else MainOutcome.errorReported uninitializedMsg

/-- One full run of `main`, with the validator's verdict produced by
`run_validation` on the actual initialization state. -/
def mainEntry (initialized : Bool) (load : String → List Record)
    (c : Command) : MainOutcome :=
  mainRun initialized (run_validation initialized) load c

/-- One project directory: its name and its kind folders, each a folder name
with the records read from the files inside. -/
structure Project where
  name : String
  folders : List (String × List Record)
deriving DecidableEq, Repr

/-- The marker substring designating org-managed project directories
(cli.py line 7). -/
def MARKER : String := "_org"

/-- Whether a directory name carries the marker substring. -/
def isMarked (name : String) : Bool :=
  containsL MARKER.toList name.toList

/-- Modelled from the spec: `scripts.views.load_files_from_subdir` is not
under `src/`.  Per §4.1 it scans every marked subdirectory for a kind-named
folder and reads its files in order; a missing kind-folder yields the empty
sequence for that project rather than an error. -/
def load_files_from_subdir (root : List Project) (kind : String) : List Record :=
  (root.filter (fun p => isMarked p.name)).flatMap
    (fun p => (List.lookup kind p.folders).getD [])

/-- The Browser Session's mutable state of §3: the full baseline collection,
the current view, the cursor, and whether the session has terminated. -/
structure SessionState where
  full : List Record
  view : List Record
  cursor : Nat
  terminated : Bool
deriving DecidableEq, Repr

/-- Input events of the Browser Session state machine (§4.3). -/
inductive BEvent
  | up
  | down
  | fuzzyQ (prop term : String)
  | exactQ (prop term : String)
  | sortQ (prop : String) (reverse : Bool)
  | reset
  | quit
deriving DecidableEq, Repr

/-- Modelled from the spec: the Browser Session event loop lives in
`scripts.views` (not under `src/`).  Per §4.3, cursor movement changes the
cursor by one, clamped to the valid range with no wraparound; `s`/`es` set the
view to a search over the full collection; `o`/`r` sort the current view;
`a` resets the view to the full collection; each of these resets the cursor
to zero; quit terminates the session. -/
def step (s : SessionState) : BEvent → SessionState
  | BEvent.up => { s with cursor := s.cursor - 1 }
  | BEvent.down => { s with cursor := min (s.cursor + 1) (s.view.length - 1) }
  | BEvent.fuzzyQ p t => { s with view := fuzzy_search s.full p t, cursor := 0 }
  | BEvent.exactQ p t => { s with view := exact_search s.full p t, cursor := 0 }
  | BEvent.sortQ p rv => { s with view := sort_items s.view p rv, cursor := 0 }
  | BEvent.reset => { s with view := s.full, cursor := 0 }
  | BEvent.quit => { s with terminated := true }

/-- The initial session state: the view is the full collection and the cursor
sits on the first row. -/
def initSession (full : List Record) : SessionState :=
  ⟨full, full, 0, false⟩

/-- The cursor invariant: on an empty view the cursor is exactly zero, on a
non-empty view it is a valid index. -/
def cursorOk (s : SessionState) : Bool :=
  if s.view.isEmpty then s.cursor == 0 else decide (s.cursor < s.view.length)

/-- A concrete record used to instantiate universally quantified theorems. -/
def sampleRecord : Record :=
  ⟨Kind.todo, "/work/proj_org/todos/a.md", [("status", "open")], "status: open"⟩

/-! ## Theorems -/

/-- C4: for every loader, loading kind `all` returns exactly the concatenation
of the notes load, then the todos load, then the events load, preserving
per-kind then per-file order. -/
theorem load_all_concatenates (load : String → List Record) :
    loadEntries load "all" = load "notes" ++ load "todos" ++ load "events" := rfl

/-- C5: in every `view` invocation, browsing is gated on the validation
result: when the validator raises, the outcome is the reported error for
every loader (so no loading happens and no session starts); when validation
succeeds, the session starts with the displayed collection. -/
theorem validation_gates_browsing (initialized : Bool) (load : String → List Record)
    (ft : String) (cmd prop term : Option String) (e : String) :
    mainRun initialized (Except.error e) load (Command.view ft cmd prop term)
        = MainOutcome.errorReported e
    ∧ mainRun initialized (Except.ok ()) load (Command.view ft cmd prop term)
        = MainOutcome.sessionStarted (viewResult load ft cmd prop term) :=
  ⟨rfl, rfl⟩

/-- C3: when the working directory is not initialized, every invocation that
would start a browsing session — a `view` invocation (gated by the validator)
and the bare invocation (gated by the `.org` check) — reports the problem and
never starts a session. -/
theorem uninitialized_never_starts_session (load : String → List Record)
    (ft : String) (cmd prop term : Option String) :
    mainEntry false load (Command.view ft cmd prop term)
        = MainOutcome.errorReported uninitializedMsg
    ∧ mainEntry false load Command.noCmd
        = MainOutcome.errorReported uninitializedMsg :=
  ⟨rfl, rfl⟩

/-- C10: the `view` dispatch of `main` never passes search arguments and a
sort property in the same invocation: every dispatched call has no sort
property, or has neither search property nor search term. -/
theorem dispatch_never_both_search_and_sort (ft : String) (cmd prop term : Option String) :
    (dispatchView ft cmd prop term).sort_prop = none
    ∨ ((dispatchView ft cmd prop term).search_prop = none
        ∧ (dispatchView ft cmd prop term).search_term = none) := by
  unfold dispatchView
  split
  · exact Or.inl rfl
  · split
    · exact Or.inl rfl
    · split
      · exact Or.inr ⟨rfl, rfl⟩
      · split
        · exact Or.inr ⟨rfl, rfl⟩
        · split
          · exact Or.inl rfl
          · exact Or.inl rfl

/-- C2: an empty or missing search term or search property makes the search
stage the identity, and an empty or missing sort property makes the sort
stage the identity, so the displayed collection equals the input collection
unchanged (and, the function being total, no error is raised). -/
theorem empty_query_is_identity (entries : List Record)
    (search_prop search_term : Option String) (exact : Bool)
    (sort_prop : Option String) (reverse : Bool)
    (hsearch : truthy search_prop = false ∨ truthy search_term = false)
    (hsort : truthy sort_prop = false) :
    applyQueries entries search_prop search_term exact sort_prop reverse = entries := by
  unfold applyQueries
  rcases hsearch with h | h <;> simp [h, hsort]

/-- C2 witness: with a missing property and an empty sort property the
pipeline leaves a concrete one-record collection unchanged. -/
theorem empty_query_is_identity_witness :
    (truthy none = false ∨ truthy (some "x") = false)
    ∧ truthy (some "") = false
    ∧ applyQueries [sampleRecord] none (some "x") false (some "") true = [sampleRecord] :=
  ⟨Or.inl (by decide), by decide,
    empty_query_is_identity [sampleRecord] none (some "x") false (some "") true
      (Or.inl (by decide)) (by decide)⟩

/-- C1: the `view` dispatch maps each command to exactly the specified
transform over the freshly loaded full collection: `s` with truthy property
and term yields the fuzzy search of the full load, `es` the exact search,
`o` the sort with reverse off, `r` the sort with reverse on, and `a` (or no
command) the full load unchanged. -/
theorem view_dispatch_correct (load : String → List Record) (ft p t : String)
    (hp : p ≠ "") (ht : t ≠ "") :
    viewResult load ft (some "s") (some p) (some t)
        = fuzzy_search (loadEntries load ft) p t
    ∧ viewResult load ft (some "es") (some p) (some t)
        = exact_search (loadEntries load ft) p t
    ∧ viewResult load ft (some "o") (some p) (some t)
        = sort_items (loadEntries load ft) p false
    ∧ viewResult load ft (some "r") (some p) (some t)
        = sort_items (loadEntries load ft) p true
    ∧ viewResult load ft (some "a") (some p) (some t) = loadEntries load ft
    ∧ viewResult load ft none (some p) (some t) = loadEntries load ft := by
  refine ⟨?_, ?_, ?_, ?_, ?_, ?_⟩ <;>
    simp [viewResult, runDisplayCall, dispatchView, display_graphical_view,
      applyQueries, truthy, hp, ht]

/-- C1 witness: the dispatch equations instantiated at a concrete loader,
file type, property and term. -/
theorem view_dispatch_correct_witness :
    ("status" : String) ≠ "" ∧ ("open" : String) ≠ ""
    ∧ (viewResult (fun _ => [sampleRecord]) "todos" (some "s") (some "status") (some "open")
          = fuzzy_search (loadEntries (fun _ => [sampleRecord]) "todos") "status" "open"
      ∧ viewResult (fun _ => [sampleRecord]) "todos" (some "es") (some "status") (some "open")
          = exact_search (loadEntries (fun _ => [sampleRecord]) "todos") "status" "open"
      ∧ viewResult (fun _ => [sampleRecord]) "todos" (some "o") (some "status") (some "open")
          = sort_items (loadEntries (fun _ => [sampleRecord]) "todos") "status" false
      ∧ viewResult (fun _ => [sampleRecord]) "todos" (some "r") (some "status") (some "open")
          = sort_items (loadEntries (fun _ => [sampleRecord]) "todos") "status" true
      ∧ viewResult (fun _ => [sampleRecord]) "todos" (some "a") (some "status") (some "open")
          = loadEntries (fun _ => [sampleRecord]) "todos"
      ∧ viewResult (fun _ => [sampleRecord]) "todos" none (some "status") (some "open")
          = loadEntries (fun _ => [sampleRecord]) "todos") :=
  ⟨by decide, by decide,
    view_dispatch_correct (fun _ => [sampleRecord]) "todos" "status" "open"
      (by decide) (by decide)⟩

theorem startsWithL_self : ∀ l : List Char, startsWithL l l = true
  | [] => rfl
  | a :: as => by simp [startsWithL, startsWithL_self as]

theorem containsL_self (l : List Char) : containsL l l = true := by
  cases l with
  | nil => rfl
  | cons a as => simp [containsL, startsWithL_self (a :: as)]

theorem fuzzyMatches_refl (t : String) : fuzzyMatches t t = true := by
  simp [fuzzyMatches, containsL_self]

/-- C6: every record returned by the exact search of a collection on a
property and term is also returned by the fuzzy search of that collection on
the same property and term. -/
theorem exact_search_subset_fuzzy_search (C : List Record) (p t : String) (r : Record)
    (h : r ∈ exact_search C p t) : r ∈ fuzzy_search C p t := by
  unfold exact_search at h
  unfold fuzzy_search
  rcases List.mem_filter.mp h with ⟨hmem, hpred⟩
  refine List.mem_filter.mpr ⟨hmem, ?_⟩
  cases hv : getProp p r with
  | none => rw [hv] at hpred; simp at hpred
  | some v =>
    rw [hv] at hpred
    have hvt : v = t := by simpa using hpred
    simpa [hvt] using fuzzyMatches_refl t

/-- C6 witness: a concrete record matched exactly is also matched fuzzily. -/
theorem exact_search_subset_fuzzy_search_witness :
    sampleRecord ∈ exact_search [sampleRecord] "status" "open"
    ∧ sampleRecord ∈ fuzzy_search [sampleRecord] "status" "open" :=
  ⟨by decide,
    exact_search_subset_fuzzy_search [sampleRecord] "status" "open" sampleRecord (by decide)⟩

theorem cursorOk_zero (f : List Record) (V : List Record) (tm : Bool) :
    cursorOk ⟨f, V, 0, tm⟩ = true := by
  cases V <;> simp [cursorOk]

theorem cursorOk_init (full : List Record) : cursorOk (initSession full) = true :=
  cursorOk_zero full full false

theorem cursorOk_step (s : SessionState) (e : BEvent) (hs : cursorOk s = true) :
    cursorOk (step s e) = true := by
  obtain ⟨f, v, c, tm⟩ := s
  cases e with
  | up =>
    simp only [step, cursorOk] at hs ⊢
    cases v with
    | nil =>
      simp at hs ⊢
      omega
    | cons a t =>
      simp at hs ⊢
      omega
  | down =>
    simp only [step, cursorOk] at hs ⊢
    cases v with
    | nil => simp
    | cons a t => simp at hs ⊢
  | fuzzyQ p t => exact cursorOk_zero f (fuzzy_search f p t) tm
  | exactQ p t => exact cursorOk_zero f (exact_search f p t) tm
  | sortQ p rv => exact cursorOk_zero f (sort_items v p rv) tm
  | reset => exact cursorOk_zero f f tm
  | quit => exact hs

theorem cursorOk_foldl (es : List BEvent) (s : SessionState) (hs : cursorOk s = true) :
    cursorOk (es.foldl step s) = true := by
  induction es generalizing s with
  | nil => exact hs
  | cons e t ih => exact ih (step s e) (cursorOk_step s e hs)

/-- C9: after any sequence of input events from the initial state, the cursor
lies in the valid range — a legal index of the view collection when it is
non-empty, and exactly zero when it is empty — so clamped movement never
wraps, goes negative, or exceeds the last index. -/
theorem cursor_always_in_range (full : List Record) (events : List BEvent) :
    cursorOk (events.foldl step (initSession full)) = true :=
  cursorOk_foldl events (initSession full) (cursorOk_init full)

theorem sortAsc_idem (C : List Record) (p : String) :
    sortAsc (sortAsc C p) p = sortAsc C p := by
  unfold sortAsc
  set A := C.filter (fun r => hasProp p r) with hA
  set B := C.filter (fun r => !hasProp p r) with hB
  set S := List.insertionSort (keyLe p) A with hS
  have hSmem : ∀ r ∈ S, hasProp p r = true := by
    intro r hr
    have hrA : r ∈ A := (List.perm_insertionSort (keyLe p) A).mem_iff.mp hr
    exact List.of_mem_filter hrA
  have h1 : (S ++ B).filter (fun r => hasProp p r) = S := by
    rw [List.filter_append, List.filter_eq_self.mpr hSmem]
    have hBnil : B.filter (fun r => hasProp p r) = [] := by
      apply List.filter_eq_nil_iff.mpr
      intro a ha
      have hna := List.of_mem_filter ha
      simp at hna
      simp [hna]
    rw [hBnil, List.append_nil]
  have h2 : (S ++ B).filter (fun r => !hasProp p r) = B := by
    rw [List.filter_append]
    have hSnil : S.filter (fun r => !hasProp p r) = [] := by
      apply List.filter_eq_nil_iff.mpr
      intro a ha
      simp [hSmem a ha]
    have hBfull : B.filter (fun r => !hasProp p r) = B := by
      apply List.filter_eq_self.mpr
      intro a ha
      rw [hB] at ha
      have hfa := List.of_mem_filter ha
      simpa using hfa
    rw [hSnil, hBfull, List.nil_append]
  rw [h1, h2, (List.sorted_insertionSort (keyLe p) A).insertionSort_eq]

/-- C7: sorting an already ascending-sorted collection with reverse on yields
the exact element-wise reversal of the ascending ordering; in particular the
missing-property records, which form the tail of the ascending ordering, come
first in the reversed one. -/
theorem reverse_sort_is_reversal (C : List Record) (p : String) :
    sort_items (sort_items C p false) p true = (sort_items C p false).reverse
    ∧ sort_items (sort_items C p false) p true
        = (C.filter (fun r => !hasProp p r)).reverse
          ++ (List.insertionSort (keyLe p) (C.filter (fun r => hasProp p r))).reverse := by
  have hfalse : sort_items C p false = sortAsc C p := by simp [sort_items]
  have htrue : sort_items (sort_items C p false) p true
      = (sortAsc (sortAsc C p) p).reverse := by simp [sort_items, hfalse]
  constructor
  · rw [htrue, sortAsc_idem, hfalse]
  · rw [htrue, sortAsc_idem]
    unfold sortAsc
    rw [List.reverse_append]

/-- A concrete marked project with no kind folders at all. -/
def emptyProject : Project := ⟨"proj_org", []⟩

/-- C8: for a marked project whose kind-folder for the requested kind is
missing or empty, loading that kind returns the empty collection rather than
failing, the `view` session over that project still starts after successful
validation, and the renderer shows the "no entries" placeholder instead of an
empty screen. -/
theorem missing_kind_folder_is_empty_and_session_starts (proj : Project) (kind : String)
    (hmark : isMarked proj.name = true)
    (hmiss : List.lookup kind proj.folders = none ∨ List.lookup kind proj.folders = some [])
    (hkind : kind = "notes" ∨ kind = "todos" ∨ kind = "events") :
    load_files_from_subdir [proj] kind = []
    ∧ mainRun true (Except.ok ()) (load_files_from_subdir [proj])
        (Command.view kind none none none) = MainOutcome.sessionStarted []
    ∧ display_files_with_view
        (viewResult (load_files_from_subdir [proj]) kind none none none)
        = RenderOutput.placeholder := by
  have hload : load_files_from_subdir [proj] kind = [] := by
    unfold load_files_from_subdir
    rcases hmiss with h | h <;> simp [hmark, h]
  have hview : viewResult (load_files_from_subdir [proj]) kind none none none = [] := by
    unfold viewResult runDisplayCall dispatchView display_graphical_view applyQueries loadEntries
    rcases hkind with h | h | h <;> subst h <;> simp [truthy, hload]
  refine ⟨hload, ?_, ?_⟩
  · have hrun : mainRun true (Except.ok ()) (load_files_from_subdir [proj])
        (Command.view kind none none none)
        = MainOutcome.sessionStarted
            (viewResult (load_files_from_subdir [proj]) kind none none none) := rfl
    rw [hrun, hview]
  · rw [hview]
    rfl

/-- C8 witness: a concrete marked project with no `notes` folder loads the
empty collection, the session starts, and the placeholder is rendered. -/
theorem missing_kind_folder_witness :
    isMarked emptyProject.name = true
    ∧ (List.lookup "notes" emptyProject.folders = none
        ∨ List.lookup "notes" emptyProject.folders = some [])
    ∧ (("notes" : String) = "notes" ∨ ("notes" : String) = "todos"
        ∨ ("notes" : String) = "events")
    ∧ (load_files_from_subdir [emptyProject] "notes" = []
      ∧ mainRun true (Except.ok ()) (load_files_from_subdir [emptyProject])
          (Command.view "notes" none none none) = MainOutcome.sessionStarted []
      ∧ display_files_with_view
          (viewResult (load_files_from_subdir [emptyProject]) "notes" none none none)
          = RenderOutput.placeholder) :=
  ⟨by decide, Or.inl (by decide), Or.inl rfl,
    missing_kind_folder_is_empty_and_session_starts emptyProject "notes"
      (by decide) (Or.inl (by decide)) (Or.inl rfl)⟩
